import Mathlib

/-!
# Verification of the polymarket-board dashboard and server

A shallow embedding of the pure core of `dashboard.py` and `server.py`:
the JSON value and field model shared by both files, the display
formatters (`fmt_vol`, `fmt_price_cents`, `fmt_delta`, `fmt_delta_plain`),
the contender extractors (`top_contenders`, `_all_contenders`), the
volume sort step of `fetch_events`, the adaptive layout search
(`calc_layout`), the TTL cache of `get_events`, a small-step model of the
asyncio lock discipline of `get_events`, and the query-parameter
validation of `api_events`.

Python machine floats are modelled as exact rationals (`ℚ`); the float
string formatting `f"x:.<d>f"` is modelled by round-half-to-even on the
rational value, which agrees with Python on every value that is exactly
representable (all concrete inputs used below are).
-/

/-- A JSON value, as produced by `json.loads`.  Python maps JSON `null`
to `None`, numbers to `int`/`float` (modelled exactly as `ℚ`), strings
to `str`, arrays to `list` and objects to `dict`. -/
inductive Json where
  | null
  | bool (b : Bool)
  | num (q : ℚ)
  | str (s : String)
  | arr (elems : List Json)
  | obj (fields : List (String × Json))

/-- The Python exceptions that can arise in the translated code paths. -/
inductive PyErr where
  | valueError
  | typeError
  | indexError
  | keyError
  | jsonDecodeError
deriving DecidableEq, Repr

/-- Python truthiness of a JSON-decoded value: `None`, `False`, `0`,
`""`, `[]` and `{}` are falsy, everything else is truthy. -/
def jsonFalsy : Json → Bool
  | .null => true
  | .bool b => !b
  | .num q => q == 0
  | .str s => s.isEmpty
  | .arr xs => xs.isEmpty
  | .obj fs => fs.isEmpty

/-- Numeric value of a digit list (most significant first). -/
def digitsVal (cs : List Char) : ℕ :=
  cs.foldl (fun n c => n * 10 + (c.toNat - 48)) 0

/-- Strip leading and trailing whitespace, as Python `float` does on its
string argument. -/
def stripWs (cs : List Char) : List Char :=
  ((cs.dropWhile Char.isWhitespace).reverse.dropWhile Char.isWhitespace).reverse

/-- Python `float(<str>)` on the finite-decimal fragment: optional
surrounding whitespace, optional sign, decimal mantissa (digits, with an
optional point and fraction digits, at least one digit overall), and an
optional exponent part.  The special forms `inf`/`nan` and digit-group
underscores are outside the model; no claim depends on them. -/
def parseFloatLit (s : String) : Option ℚ :=
  let cs := stripWs s.toList
  let signed : ℚ × List Char :=
    match cs with
    | '+' :: rest => (1, rest)
    | '-' :: rest => (-1, rest)
    | _ => (1, cs)
  let sgn := signed.1
  let cs1 := signed.2
  let ip := cs1.takeWhile Char.isDigit
  let cs2 := cs1.dropWhile Char.isDigit
  let fracPart : List Char × List Char :=
    match cs2 with
    | '.' :: rest => (rest.takeWhile Char.isDigit, rest.dropWhile Char.isDigit)
    | _ => ([], cs2)
  let fp := fracPart.1
  let cs3 := fracPart.2
  if ip.isEmpty && fp.isEmpty then none
  else
    let mant : ℚ := sgn * ((digitsVal ip : ℚ) + (digitsVal fp : ℚ) / 10 ^ fp.length)
    match cs3 with
    | [] => some mant
    | 'e' :: rest | 'E' :: rest =>
      let esigned : ℤ × List Char :=
        match rest with
        | '+' :: r => (1, r)
        | '-' :: r => (-1, r)
        | _ => (1, rest)
      let ed := esigned.2.takeWhile Char.isDigit
      let rest2 := esigned.2.dropWhile Char.isDigit
      if ed.isEmpty || !rest2.isEmpty then none
      else some (mant * (10 : ℚ) ^ (esigned.1 * (digitsVal ed : ℤ)))
    | _ => none

/-- Python `float(x)` on a JSON-decoded value: numbers pass through,
booleans coerce to 0/1, strings go through the float literal parser
(`ValueError` on failure), and `None`/lists/dicts raise `TypeError`. -/
def pyFloat : Json → Except PyErr ℚ
  | .num q => .ok q
  | .bool b => .ok (if b then 1 else 0)
  | .str s =>
    match parseFloatLit s with
    | some q => .ok q
    | none => .error .valueError
  | .null => .error .typeError
  | .arr _ => .error .typeError
  | .obj _ => .error .typeError

deriving instance DecidableEq for Except

/-- Round half to even, as Python's float formatting does. -/
def rndHalfEven (q : ℚ) : ℤ :=
  let f : ℤ := q.floor
  if q - (f : ℚ) < 1 / 2 then f
  else if (1 / 2 : ℚ) < q - (f : ℚ) then f + 1
  else if f % 2 = 0 then f else f + 1

/-- Python `f"x:.0f"` on an exactly-representable value. -/
def fmtFixed0 (q : ℚ) : String :=
  toString (rndHalfEven q)

/-- Python `f"x:.1f"` on an exactly-representable value. -/
def fmtFixed1 (q : ℚ) : String :=
  let n := rndHalfEven (q * 10)
  (if n < 0 then "-" else "") ++ toString (n.natAbs / 10) ++ "." ++ toString (n.natAbs % 10)

/-- `dashboard.fmt_vol`: `n = float(v or 0)` (so an absent or falsy
field becomes `0`), `ValueError`/`TypeError` give the em-dash, then the
magnitude-suffix branches.  The input is the raw field value (`none` for
an absent key, which Python's `.get` returns as `None`). -/
def fmt_vol (v : Option Json) : String :=
  let n : Except PyErr ℚ :=
    match v with
    | none => .ok 0
    | some j => if jsonFalsy j then .ok 0 else pyFloat j
  match n with
  | .error _ => "—"
  | .ok n =>
    if 1000000 ≤ n then "$" ++ fmtFixed1 (n / 1000000) ++ "M"
    else if 1000 ≤ n then "$" ++ fmtFixed0 (n / 1000) ++ "K"
    else "$" ++ fmtFixed0 n

/-- `dashboard.fmt_price_cents`. -/
def fmt_price_cents (yes : ℚ) : String :=
  let cents := yes * 100
  if cents < 1 then "<1¢" else fmtFixed0 cents ++ "¢"

/-- `dashboard.fmt_delta`, as the pair (text, style) of the returned
rich `Text`.  A JSON `null` field value is Python `None`, hence the flat
branch; `float` failures (`ValueError`/`TypeError`) are caught. -/
def fmt_delta (delta : Option Json) : String × String :=
  match delta with
  | none => ("—", "dim")
  | some .null => ("—", "dim")
  | some j =>
    match pyFloat j with
    | .error _ => ("—", "dim")
    | .ok x =>
      let cents := x * 100
      if |cents| < 1 / 20 then ("—", "dim")
      else if 0 < cents then ("▲+" ++ fmtFixed1 cents, "green")
      else ("▼" ++ fmtFixed1 cents, "red")

/-- `server.fmt_delta_plain`, as the pair (text, direction). -/
def fmt_delta_plain (delta : Option Json) : String × String :=
  match delta with
  | none => ("—", "flat")
  | some .null => ("—", "flat")
  | some j =>
    match pyFloat j with
    | .error _ => ("—", "flat")
    | .ok x =>
      let cents := x * 100
      if |cents| < 1 / 20 then ("—", "flat")
      else if 0 < cents then ("▲+" ++ fmtFixed1 cents, "up")
      else ("▼" ++ fmtFixed1 cents, "down")

/-! Evaluation lemmas for the rounding helper.  Rational arithmetic does
not reduce in the kernel (its normalization is by well-founded
recursion), so concrete renderings are obtained by characterizing
`rndHalfEven` arithmetically and discharging the arithmetic with
`norm_num`. -/

lemma ratFloor_eq_intFloor (q : ℚ) : q.floor = ⌊q⌋ := rfl

lemma rndHalfEven_of_lt_half (q : ℚ) (n : ℤ) (h1 : (n : ℚ) ≤ q) (h2 : q < (n : ℚ) + 1 / 2) :
    rndHalfEven q = n := by
  have hf : ⌊q⌋ = n := Int.floor_eq_iff.mpr ⟨h1, by linarith⟩
  simp only [rndHalfEven, ratFloor_eq_intFloor, hf]
  rw [if_pos (by linarith)]

lemma rndHalfEven_of_gt_half (q : ℚ) (n : ℤ) (h1 : (n : ℚ) + 1 / 2 < q) (h2 : q < (n : ℚ) + 1) :
    rndHalfEven q = n + 1 := by
  have hf : ⌊q⌋ = n := Int.floor_eq_iff.mpr ⟨by linarith, h2⟩
  simp only [rndHalfEven, ratFloor_eq_intFloor, hf]
  rw [if_neg (by linarith), if_pos (by linarith)]

lemma rndHalfEven_of_int (q : ℚ) (n : ℤ) (h : q = (n : ℚ)) : rndHalfEven q = n :=
  rndHalfEven_of_lt_half q n (by rw [h]) (by rw [h]; linarith)

lemma rndHalfEven_of_tie_even (q : ℚ) (n : ℤ) (h : q = (n : ℚ) + 1 / 2) (he : n % 2 = 0) :
    rndHalfEven q = n := by
  have hf : ⌊q⌋ = n := Int.floor_eq_iff.mpr ⟨by rw [h]; linarith, by rw [h]; linarith⟩
  simp only [rndHalfEven, ratFloor_eq_intFloor, hf]
  rw [if_neg (by rw [h]; linarith), if_neg (by rw [h]; linarith), if_pos he]

lemma fmtFixed1_eval (q : ℚ) (n : ℤ) (h : rndHalfEven (q * 10) = n) :
    fmtFixed1 q =
      (if n < 0 then "-" else "") ++ toString (n.natAbs / 10) ++ "." ++ toString (n.natAbs % 10) := by
  simp only [fmtFixed1, h]

lemma fmtFixed0_eval (q : ℚ) (n : ℤ) (h : rndHalfEven q = n) :
    fmtFixed0 q = toString n := by
  simp only [fmtFixed0, h]

/-! ## Data model: events, markets, contenders -/

/-- The serialized `outcomePrices` string field, represented by the
outcome of `json.loads` on it: `.malformed` stands for any string on
which `json.loads` raises `JSONDecodeError`; `.wellFormed j` for a
string that parses to the JSON value `j`.  The source consumes the
string only through `json.loads`, so this quotient of the string domain
is faithful. -/
inductive PriceField where
  | malformed
  | wellFormed (j : Json)

/-- One market object inside an event, with the fields the source reads.
`none` models an absent key (Python `.get` returning `None`) and, for
the fields combined with `or`, any other falsy value. -/
structure Market where
  groupItemTitle : Option String := none
  question : Option String := none
  outcomePrices : Option PriceField := none
  oneDayPriceChange : Option Json := none
  endDateIso : Option String := none
  endDate : Option String := none

/-- One event object, with the fields the source reads.  `markets`
models `event.get("markets") or []`. -/
structure Event where
  title : Option String := none
  volume : Option Json := none
  volume24hr : Option Json := none
  volumeNum : Option Json := none
  endDateIso : Option String := none
  endDate : Option String := none
  markets : List Market := []

/-- A contender dict as built by `dashboard.top_contenders`. -/
structure Contender where
  name : String
  yes : ℚ
  delta : Option Json

/-- A contender dict as built by `server._all_contenders` (adds the
`endDate` field). -/
structure ContenderW where
  name : String
  yes : ℚ
  delta : Option Json
  endDate : String

/-- `json.loads(m.get("outcomePrices") or "[0,1]")`: an absent (or
falsy) field falls back to the literal `"[0,1]"`, which parses to the
array `[0, 1]`; a malformed string raises `JSONDecodeError`. -/
def loadPrices : Option PriceField → Except PyErr Json
  | none => .ok (.arr [.num 0, .num 1])
  | some .malformed => .error .jsonDecodeError
  | some (.wellFormed j) => .ok j

/-- Python `prices[0]` on a JSON-decoded value: arrays and strings are
subscriptable (`IndexError` when empty), dicts raise `KeyError` (the
integer 0 is not a key produced by `json.loads`), and
numbers/booleans/`None` raise `TypeError`. -/
def pySubscript0 : Json → Except PyErr Json
  | .arr [] => .error .indexError
  | .arr (x :: _) => .ok x
  | .str s =>
    match s.toList with
    | [] => .error .indexError
    | c :: _ => .ok (.str (String.mk [c]))
  | .obj _ => .error .keyError
  | .null => .error .typeError
  | .bool _ => .error .typeError
  | .num _ => .error .typeError

/-- The `try: ... except (json.JSONDecodeError, IndexError, ValueError): yes = 0.0`
block shared by `top_contenders` and `_all_contenders`: load the price
list, take its first element, convert with `float`; the three listed
exception types default `yes` to 0.0, any other exception (for example
`TypeError` from `float(None)`) propagates. -/
def marketYes (m : Market) : Except PyErr ℚ :=
  match loadPrices m.outcomePrices >>= pySubscript0 >>= pyFloat with
  | .ok q => .ok q
  | .error .jsonDecodeError => .ok 0
  | .error .indexError => .ok 0
  | .error .valueError => .ok 0
  | .error e => .error e

/-- `m.get("groupItemTitle") or m.get("question") or "?"`. -/
def marketName (m : Market) : String :=
  match m.groupItemTitle with
  | some s => s
  | none =>
    match m.question with
    | some s => s
    | none => "?"

/-- `m.get("endDateIso") or m.get("endDate") or ""`. -/
def marketEndDate (m : Market) : String :=
  match m.endDateIso with
  | some s => s
  | none =>
    match m.endDate with
    | some s => s
    | none => ""

/-- The `for m in markets` loop body of `dashboard.top_contenders`,
building one parsed contender dict. -/
def parseMarket (m : Market) : Except PyErr Contender := do
  let yes ← marketYes m
  pure { name := marketName m, yes := yes, delta := m.oneDayPriceChange }

/-- The `for m in markets` loop of `dashboard.top_contenders`: an
uncaught exception at any market aborts the whole loop. -/
def parseMarkets : List Market → Except PyErr (List Contender)
  | [] => .ok []
  | m :: ms => do
    let c ← parseMarket m
    let cs ← parseMarkets ms
    pure (c :: cs)

/-- The loop body of `server._all_contenders`. -/
def parseMarketW (m : Market) : Except PyErr ContenderW := do
  let yes ← marketYes m
  pure { name := marketName m, yes := yes, delta := m.oneDayPriceChange,
         endDate := marketEndDate m }

/-- The `for m in markets` loop of `server._all_contenders`. -/
def parseMarketsW : List Market → Except PyErr (List ContenderW)
  | [] => .ok []
  | m :: ms => do
    let c ← parseMarketW m
    let cs ← parseMarketsW ms
    pure (c :: cs)

/-- Descending comparison by a rational key.  `parsed.sort(key=..., reverse=True)`
is Python's stable sort in descending key order; `List.insertionSort`
with this relation computes exactly that (the unique permutation that is
non-increasing in the key and preserves the original order of elements
with equal keys). -/
def keyRel {α : Type} (key : α → ℚ) (a b : α) : Prop :=
  key b ≤ key a

instance {α : Type} (key : α → ℚ) : DecidableRel (keyRel key) :=
  fun a b => inferInstanceAs (Decidable (key b ≤ key a))

def TOP_N_CONTENDERS : ℕ := 5

/-- `dashboard.top_contenders`: parse every market, stable-sort by `yes`
descending, keep the first `TOP_N_CONTENDERS`. -/
def top_contenders (event : Event) : Except PyErr (List Contender) :=
  (parseMarkets event.markets).map fun parsed =>
    (parsed.insertionSort (keyRel Contender.yes)).take TOP_N_CONTENDERS

/-- `server._all_contenders`: parse every market and stable-sort by
`yes` descending (no truncation). -/
def all_contenders (event : Event) : Except PyErr (List ContenderW) :=
  (parseMarketsW event.markets).map fun parsed =>
    parsed.insertionSort (keyRel ContenderW.yes)

/-! ## `fetch_events`: the volume sort-and-truncate step -/

/-- The sort key `float(e.get("volume") or 0)` of `fetch_events`: an
absent or falsy volume becomes 0; otherwise `float` is applied and may
raise (only `json.JSONDecodeError` is caught in `fetch_events`, so a
`ValueError`/`TypeError` here escapes). -/
def volKey (e : Event) : Except PyErr ℚ :=
  match e.volume with
  | none => .ok 0
  | some j => if jsonFalsy j then .ok 0 else pyFloat j

/-- Python evaluates the sort key on every element; the first raising
element aborts the sort. -/
def volKeysOk : List Event → Except PyErr Unit
  | [] => .ok ()
  | e :: es => do
    let _ ← volKey e
    volKeysOk es

/-- Total version of the key, equal to `volKey` whenever that succeeds. -/
def volKeyD (e : Event) : ℚ :=
  match volKey e with
  | .ok q => q
  | .error _ => 0

/-- The `data.sort(key=lambda e: float(e.get("volume") or 0), reverse=True);
return data[:limit]` step of `dashboard.fetch_events` (after a
successful `json.loads`): evaluate all keys (an exception propagates —
the surrounding `except` only catches `json.JSONDecodeError`), then
stable-sort descending by key and truncate. -/
def fetch_events_sort (data : List Event) (limit : ℕ) : Except PyErr (List Event) :=
  match volKeysOk data with
  | .error e => .error e
  | .ok _ => .ok ((data.insertionSort (keyRel volKeyD)).take limit)

/-! ## `calc_layout` -/

def PRICE_W : ℤ := 5
def DELTA_W : ℤ := 7
def FIXED_COLS_W : ℤ := 3 + 35 + 9 + 8
def MIN_NAME_W : ℤ := 8
def EVENT_W : ℤ := 35

/-- The inner `total_width(n, name_w)` of `calc_layout`. -/
def total_width (n name_w : ℤ) : ℤ :=
  FIXED_COLS_W + n * (name_w + PRICE_W + DELTA_W) + (3 + n * 3) + 2

/-- The `for k in range(TOP_N_CONTENDERS, 0, -1)` search: the largest
`k ≤ bound` whose total width at minimum name width fits, else 0. -/
def layoutSearch (width : ℤ) : ℕ → ℕ
  | 0 => 0
  | k + 1 =>
    if total_width ((k : ℤ) + 1) MIN_NAME_W ≤ width then k + 1
    else layoutSearch width k

/-- `dashboard.calc_layout`, returning `(n, name_w, EVENT_W)`.  Python's
`//` is floor division, hence `Int.fdiv`. -/
def calc_layout (width : ℤ) : ℤ × ℤ × ℤ :=
  let n0 := layoutSearch width TOP_N_CONTENDERS
  let n : ℤ := if n0 = 0 then 1 else (n0 : ℤ)
  let leftover := width - total_width n MIN_NAME_W
  let name_w := MIN_NAME_W + Int.fdiv leftover n
  (n, name_w, EVENT_W)

/-! ## `get_events`: the TTL cache -/

/-- `server.get_events`, sequential semantics.  The cache maps a limit
to `(timestamp, data)`; `fetch` abstracts `dashboard.fetch_events`
(executed in the thread pool), `now` is the `time.monotonic()` value
taken on entry, `TTL` is `CACHE_TTL`.  Returns the result, the updated
cache, and the number of upstream invocations performed (0 or 1). -/
def get_events {α : Type} (TTL : ℚ) (fetch : ℤ → α) (now : ℚ)
    (cache : ℤ → Option (ℚ × α)) (limit : ℤ) :
    α × (ℤ → Option (ℚ × α)) × ℕ :=
  match cache limit with
  | some (ts, data) =>
    if now - ts < TTL then (data, cache, 0)
    else
      let d := fetch limit
      (d, fun k => if k = limit then some (now, d) else cache k, 1)
  | none =>
    let d := fetch limit
    (d, fun k => if k = limit then some (now, d) else cache k, 1)

/-! ## The asyncio lock discipline of `get_events`

A small-step model of two concurrent `get_events` coroutines on the
single-threaded asyncio event loop, requesting two *different* cache
keys (say `limit=10` and `limit=20`), with the cache initially empty.
The coroutine body is `async with _cache_lock: check cache; await
run_in_executor(fetch); store` — the lock is held across the executor
await.  Suspension points are exactly the lock acquisition and the
executor await, so each task steps atomically between them:

* `enter` (lock free, phase `start`): acquire the lock and check the
  cache; on a fresh hit return at once (lock released within the step);
  on a miss begin the executor fetch, keeping the lock (phase
  `fetching`).
* `finish` (phase `fetching`, holding the lock): the executor call
  returns; store the result and release the lock (phase `done`).

A task at `start` while the other task holds the lock has no enabled
step: it is suspended in the lock's wait queue. -/

inductive Phase where
  | start
  | fetching
  | done
deriving DecidableEq

structure SrvState where
  ph0 : Phase
  ph1 : Phase
  lock : Option (Fin 2)
  cached0 : Bool
  cached1 : Bool
deriving DecidableEq

/-- One step of task `t` (task `i` requests cache key `i`). -/
inductive SrvStep : Fin 2 → SrvState → SrvState → Prop where
  | hit0 {s : SrvState} : s.ph0 = .start → s.lock = none → s.cached0 = true →
      SrvStep 0 s { s with ph0 := .done }
  | miss0 {s : SrvState} : s.ph0 = .start → s.lock = none → s.cached0 = false →
      SrvStep 0 s { s with ph0 := .fetching, lock := some 0 }
  | fin0 {s : SrvState} : s.ph0 = .fetching → s.lock = some 0 →
      SrvStep 0 s { s with ph0 := .done, lock := none, cached0 := true }
  | hit1 {s : SrvState} : s.ph1 = .start → s.lock = none → s.cached1 = true →
      SrvStep 1 s { s with ph1 := .done }
  | miss1 {s : SrvState} : s.ph1 = .start → s.lock = none → s.cached1 = false →
      SrvStep 1 s { s with ph1 := .fetching, lock := some 1 }
  | fin1 {s : SrvState} : s.ph1 = .fetching → s.lock = some 1 →
      SrvStep 1 s { s with ph1 := .done, lock := none, cached1 := true }

/-- Both requests pending, lock free, cache empty. -/
def srvInit : SrvState :=
  { ph0 := .start, ph1 := .start, lock := none, cached0 := false, cached1 := false }

/-- States reachable by interleaving the two tasks. -/
inductive SrvReach : SrvState → Prop where
  | init : SrvReach srvInit
  | next {s s' : SrvState} {t : Fin 2} : SrvReach s → SrvStep t s s' → SrvReach s'

/-- The state in which task 0 is mid-fetch (holding the lock) and task 1
has not started. -/
def srvBlocked : SrvState :=
  { ph0 := .fetching, ph1 := .start, lock := some 0, cached0 := false, cached1 := false }

/-! ## `api_events` query validation and price cells -/

/-- The FastAPI parameter `limit: int = Query(10, ge=1, le=100)` of
`server.api_events`: an absent parameter takes the default 10; a
present out-of-range value is rejected with a 422 validation error
(FastAPI validates `ge`/`le` bounds, it does not clamp). -/
def api_events_limit (n : Option ℤ) : Except Unit ℤ :=
  match n with
  | none => .ok 10
  | some v => if 1 ≤ v ∧ v ≤ 100 then .ok v else .error ()

/-- Modelled from the spec: the clamping reading of
"N clamped to [1,100], default 10", for comparison with the code's
validating behavior. -/
def clamp_limit_spec (n : Option ℤ) : ℤ :=
  match n with
  | none => 10
  | some v => max 1 (min 100 v)

/-- The price cell of a contender row in `dashboard.build_table`:
`fmt_price_cents(c["yes"]) if c["yes"] > 0 else ""`. -/
def price_cell (yes : ℚ) : String :=
  if 0 < yes then fmt_price_cents yes else ""

/-- The `price` field of a contender object in `server.events_to_json`:
`_dash.fmt_price_cents(c["yes"]) if c["yes"] > 0 else ""`. -/
def api_price (yes : ℚ) : String :=
  if 0 < yes then fmt_price_cents yes else ""

/-! ## Sortedness and stability of the descending key sort -/

lemma pairwise_insertionSort_key {α : Type} (key : α → ℚ) (l : List α) :
    (l.insertionSort (keyRel key)).Pairwise (keyRel key) := by
  haveI : IsTotal α (keyRel key) := ⟨fun a b => le_total (key b) (key a)⟩
  haveI : IsTrans α (keyRel key) := ⟨fun _ _ _ h1 h2 => le_trans h2 h1⟩
  exact List.sorted_insertionSort _ l

lemma filter_orderedInsert_key {α : Type} (key : α → ℚ) (q : ℚ) (a : α) (l : List α) :
    (l.orderedInsert (keyRel key) a).filter (fun c => decide (key c = q)) =
      if key a = q then a :: l.filter (fun c => decide (key c = q))
      else l.filter (fun c => decide (key c = q)) := by
  induction l with
  | nil =>
    by_cases ha : key a = q <;> simp [List.orderedInsert, ha]
  | cons b l ih =>
    rw [List.orderedInsert]
    by_cases hr : keyRel key a b
    · rw [if_pos hr]
      by_cases ha : key a = q <;> simp [List.filter_cons, ha]
    · rw [if_neg hr]
      by_cases ha : key a = q
      · have hb : ¬ key b = q := fun hb => hr (le_of_eq (hb.trans ha.symm))
        simp [List.filter_cons, ih, ha, hb]
      · simp [List.filter_cons, ih, ha]

lemma filter_insertionSort_key {α : Type} (key : α → ℚ) (q : ℚ) (l : List α) :
    (l.insertionSort (keyRel key)).filter (fun c => decide (key c = q)) =
      l.filter (fun c => decide (key c = q)) := by
  induction l with
  | nil => rfl
  | cons a l ih =>
    rw [List.insertionSort, filter_orderedInsert_key]
    by_cases ha : key a = q <;> simp [List.filter_cons, ha, ih]

/-! ## C4: extractor ordering and stability -/

/-- C4: for every event, both extractor variants (`top_contenders`,
bounded to the top 5, and `_all_contenders`, unbounded) return
contenders non-increasing in yes-probability, and contenders with equal
yes-probability appear in the same relative order as the parsed markets
of the input event (stable sort): for every key value `q`, the
equal-`yes` subsequence of the output is, in order, a subsequence of the
parsed input's (an equality for the unbounded variant). -/
theorem c4_extractor_sorted_stable (event : Event)
    (top : List Contender) (allc : List ContenderW)
    (parsedT : List Contender) (parsedW : List ContenderW)
    (ht : top_contenders event = .ok top)
    (hpt : parseMarkets event.markets = .ok parsedT)
    (ha : all_contenders event = .ok allc)
    (hpw : parseMarketsW event.markets = .ok parsedW) :
    top.Pairwise (fun a b => b.yes ≤ a.yes) ∧
    allc.Pairwise (fun a b => b.yes ≤ a.yes) ∧
    (∀ q : ℚ, List.Sublist (top.filter (fun c => decide (c.yes = q)))
        (parsedT.filter (fun c => decide (c.yes = q)))) ∧
    (∀ q : ℚ, allc.filter (fun c => decide (c.yes = q)) =
        parsedW.filter (fun c => decide (c.yes = q))) := by
  rw [top_contenders, hpt] at ht
  rw [all_contenders, hpw] at ha
  simp only [Except.map] at ht ha
  obtain rfl : (parsedT.insertionSort (keyRel Contender.yes)).take TOP_N_CONTENDERS = top :=
    by cases ht; rfl
  obtain rfl : parsedW.insertionSort (keyRel ContenderW.yes) = allc := by cases ha; rfl
  refine ⟨?_, ?_, ?_, ?_⟩
  · exact (pairwise_insertionSort_key Contender.yes parsedT).sublist
      (List.take_sublist _ _)
  · exact pairwise_insertionSort_key ContenderW.yes parsedW
  · intro q
    have hs := (List.take_sublist TOP_N_CONTENDERS
        (parsedT.insertionSort (keyRel Contender.yes))).filter
        (fun c => decide (c.yes = q))
    rwa [filter_insertionSort_key Contender.yes q parsedT] at hs
  · intro q
    exact filter_insertionSort_key ContenderW.yes q parsedW

def mEx1 : Market :=
  { groupItemTitle := some "A", outcomePrices := some (.wellFormed (.arr [.num 1])) }

def mEx2 : Market :=
  { question := some "B", outcomePrices := some (.wellFormed (.arr [.num 2])) }

def mEx3 : Market :=
  { groupItemTitle := some "C", outcomePrices := some (.wellFormed (.arr [.num 1])) }

def eEx : Event := { markets := [mEx1, mEx2, mEx3] }

/-- Witness for C4 at a concrete three-market event with a tie:
markets A (yes 1), B (yes 2), C (yes 1) sort to B, A, C — descending
and with the tied pair A, C in input order. -/
theorem c4_extractor_sorted_stable_witness :
    ([⟨"B", 2, none⟩, ⟨"A", 1, none⟩, ⟨"C", 1, none⟩] : List Contender).Pairwise
        (fun a b => b.yes ≤ a.yes) ∧
    ([⟨"B", 2, none, ""⟩, ⟨"A", 1, none, ""⟩, ⟨"C", 1, none, ""⟩] : List ContenderW).Pairwise
        (fun a b => b.yes ≤ a.yes) ∧
    (∀ q : ℚ,
      List.Sublist
        (([⟨"B", 2, none⟩, ⟨"A", 1, none⟩, ⟨"C", 1, none⟩] : List Contender).filter
          (fun c => decide (c.yes = q)))
        (([⟨"A", 1, none⟩, ⟨"B", 2, none⟩, ⟨"C", 1, none⟩] : List Contender).filter
          (fun c => decide (c.yes = q)))) ∧
    (∀ q : ℚ,
      ([⟨"B", 2, none, ""⟩, ⟨"A", 1, none, ""⟩, ⟨"C", 1, none, ""⟩] : List ContenderW).filter
          (fun c => decide (c.yes = q)) =
        ([⟨"A", 1, none, ""⟩, ⟨"B", 2, none, ""⟩, ⟨"C", 1, none, ""⟩] : List ContenderW).filter
          (fun c => decide (c.yes = q))) :=
  c4_extractor_sorted_stable eEx _ _ _ _ rfl rfl rfl rfl

/-! ## C1: layout bounds -/

lemma layout_fit_bound (width n : ℤ) (hn : 1 ≤ n) (_h : total_width n MIN_NAME_W ≤ width) :
    total_width n (MIN_NAME_W + Int.fdiv (width - total_width n MIN_NAME_W) n) ≤ width := by
  have hn0 : n ≠ 0 := by omega
  rw [Int.fdiv_eq_ediv _ (by omega)]
  have hm := Int.ediv_add_emod (width - total_width n MIN_NAME_W) n
  have hr := Int.emod_nonneg (width - total_width n MIN_NAME_W) hn0
  set d := (width - total_width n MIN_NAME_W) / n with hd
  simp only [total_width, FIXED_COLS_W, PRICE_W, DELTA_W, MIN_NAME_W] at hm hr ⊢
  nlinarith [hm, hr]

/-- C1: for every terminal width (with the maximum contender count fixed
at the configured `TOP_N_CONTENDERS = 5`), `calc_layout` returns a
contender count in `[1, 5]`; whenever some count in `1..5` fits at the
minimum name width, the reconstructed total width at the returned
`(count, name_width)` is at most the available width; and below the
minimum single-contender width the count is still 1. -/
theorem c1_calc_layout_bounds (width : ℤ) :
    1 ≤ (calc_layout width).1 ∧ (calc_layout width).1 ≤ 5 ∧
    ((∃ k : ℤ, 1 ≤ k ∧ k ≤ 5 ∧ total_width k MIN_NAME_W ≤ width) →
      total_width (calc_layout width).1 (calc_layout width).2.1 ≤ width) ∧
    (width < total_width 1 MIN_NAME_W → (calc_layout width).1 = 1) := by
  have e5 : layoutSearch width 5 =
      if total_width 5 MIN_NAME_W ≤ width then 5 else layoutSearch width 4 := rfl
  have e4 : layoutSearch width 4 =
      if total_width 4 MIN_NAME_W ≤ width then 4 else layoutSearch width 3 := rfl
  have e3 : layoutSearch width 3 =
      if total_width 3 MIN_NAME_W ≤ width then 3 else layoutSearch width 2 := rfl
  have e2 : layoutSearch width 2 =
      if total_width 2 MIN_NAME_W ≤ width then 2 else layoutSearch width 1 := rfl
  have e1 : layoutSearch width 1 =
      if total_width 1 MIN_NAME_W ≤ width then 1 else layoutSearch width 0 := rfl
  have e0 : layoutSearch width 0 = 0 := rfl
  have tw : ∀ k : ℤ, total_width k MIN_NAME_W = 60 + 23 * k := by
    intro k
    simp only [total_width, FIXED_COLS_W, PRICE_W, DELTA_W, MIN_NAME_W]
    ring
  by_cases c5 : total_width 5 MIN_NAME_W ≤ width
  · have hn : layoutSearch width 5 = 5 := by rw [e5, if_pos c5]
    have hcl : calc_layout width =
        (5, MIN_NAME_W + Int.fdiv (width - total_width 5 MIN_NAME_W) 5, EVENT_W) := by
      simp only [calc_layout, TOP_N_CONTENDERS, hn]
      norm_num
    rw [hcl]
    exact ⟨by norm_num, by norm_num, fun _ => layout_fit_bound width 5 (by norm_num) c5,
      fun hw => by exfalso; rw [tw] at c5 hw; omega⟩
  · by_cases c4 : total_width 4 MIN_NAME_W ≤ width
    · have hn : layoutSearch width 5 = 4 := by rw [e5, if_neg c5, e4, if_pos c4]
      have hcl : calc_layout width =
          (4, MIN_NAME_W + Int.fdiv (width - total_width 4 MIN_NAME_W) 4, EVENT_W) := by
        simp only [calc_layout, TOP_N_CONTENDERS, hn]
        norm_num
      rw [hcl]
      exact ⟨by norm_num, by norm_num, fun _ => layout_fit_bound width 4 (by norm_num) c4,
        fun hw => by exfalso; rw [tw] at c4 hw; omega⟩
    · by_cases c3 : total_width 3 MIN_NAME_W ≤ width
      · have hn : layoutSearch width 5 = 3 := by
          rw [e5, if_neg c5, e4, if_neg c4, e3, if_pos c3]
        have hcl : calc_layout width =
            (3, MIN_NAME_W + Int.fdiv (width - total_width 3 MIN_NAME_W) 3, EVENT_W) := by
          simp only [calc_layout, TOP_N_CONTENDERS, hn]
          norm_num
        rw [hcl]
        exact ⟨by norm_num, by norm_num, fun _ => layout_fit_bound width 3 (by norm_num) c3,
          fun hw => by exfalso; rw [tw] at c3 hw; omega⟩
      · by_cases c2 : total_width 2 MIN_NAME_W ≤ width
        · have hn : layoutSearch width 5 = 2 := by
            rw [e5, if_neg c5, e4, if_neg c4, e3, if_neg c3, e2, if_pos c2]
          have hcl : calc_layout width =
              (2, MIN_NAME_W + Int.fdiv (width - total_width 2 MIN_NAME_W) 2, EVENT_W) := by
            simp only [calc_layout, TOP_N_CONTENDERS, hn]
            norm_num
          rw [hcl]
          exact ⟨by norm_num, by norm_num,
            fun _ => layout_fit_bound width 2 (by norm_num) c2,
            fun hw => by exfalso; rw [tw] at c2 hw; omega⟩
        · by_cases c1h : total_width 1 MIN_NAME_W ≤ width
          · have hn : layoutSearch width 5 = 1 := by
              rw [e5, if_neg c5, e4, if_neg c4, e3, if_neg c3, e2, if_neg c2, e1, if_pos c1h]
            have hcl : calc_layout width =
                (1, MIN_NAME_W + Int.fdiv (width - total_width 1 MIN_NAME_W) 1, EVENT_W) := by
              simp only [calc_layout, TOP_N_CONTENDERS, hn]
              norm_num
            rw [hcl]
            exact ⟨by norm_num, by norm_num,
              fun _ => layout_fit_bound width 1 (by norm_num) c1h, fun _ => rfl⟩
          · have hn : layoutSearch width 5 = 0 := by
              rw [e5, if_neg c5, e4, if_neg c4, e3, if_neg c3, e2, if_neg c2, e1,
                if_neg c1h, e0]
            have hcl : calc_layout width =
                (1, MIN_NAME_W + Int.fdiv (width - total_width 1 MIN_NAME_W) 1, EVENT_W) := by
              simp only [calc_layout, TOP_N_CONTENDERS, hn]
              norm_num
            rw [hcl]
            refine ⟨by norm_num, by norm_num, fun hk => ?_, fun _ => rfl⟩
            obtain ⟨k, hk1, hk5, hkw⟩ := hk
            exfalso
            rw [tw] at hkw c1h
            omega

/-! ## C2: TTL cache semantics (sequential) -/

/-- C2: for every cache key (requested limit): a call finding an entry
younger than the TTL returns its data with zero upstream invocations and
an unchanged cache; a call finding no entry or a stale entry performs
exactly one upstream invocation and overwrites the entry for that exact
key with the fresh result stamped at the call time; and in every case
the entry of any other key is untouched. -/
theorem c2_cache_semantics {α : Type} (TTL now ts : ℚ) (fetch : ℤ → α)
    (cache : ℤ → Option (ℚ × α)) (limit : ℤ) (data : α) :
    (cache limit = some (ts, data) → now - ts < TTL →
      get_events TTL fetch now cache limit = (data, cache, 0)) ∧
    ((cache limit = none ∨ (cache limit = some (ts, data) ∧ TTL ≤ now - ts)) →
      (get_events TTL fetch now cache limit).1 = fetch limit ∧
      (get_events TTL fetch now cache limit).2.2 = 1 ∧
      (get_events TTL fetch now cache limit).2.1 limit = some (now, fetch limit)) ∧
    (∀ k : ℤ, k ≠ limit →
      (get_events TTL fetch now cache limit).2.1 k = cache k) := by
  refine ⟨fun hc hfresh => ?_, fun hmiss => ?_, fun k hk => ?_⟩
  · simp only [get_events, hc]
    rw [if_pos hfresh]
  · rcases hmiss with hnone | ⟨hsome, hstale⟩
    · simp only [get_events, hnone]
      simp
    · simp only [get_events, hsome]
      rw [if_neg (not_lt.mpr hstale)]
      simp
  · cases hc : cache limit with
    | none =>
      simp only [get_events, hc]
      simp [hk]
    | some tsd =>
      obtain ⟨ts', d'⟩ := tsd
      simp only [get_events, hc]
      by_cases hfresh : now - ts' < TTL
      · rw [if_pos hfresh]
      · rw [if_neg hfresh]
        simp [hk]

/-- A concrete cache for the C2 witness: key 10 holds (5, 42), key 20
holds (1, 7), every other key is empty. -/
def cacheEx : ℤ → Option (ℚ × ℕ) := fun k =>
  if k = 10 then some (5, 42) else if k = 20 then some (1, 7) else none

/-- Witness for C2: at `TTL = 30`, `now = 6`, the entry for key 10 aged
1 is fresh and returned with no fetch; at `now = 40` it is stale, so one
fetch happens and the entry is overwritten; key 20's entry survives a
fetch for key 10 unchanged. -/
theorem c2_cache_semantics_witness :
    get_events 30 (fun _ => 99) 6 cacheEx 10 = (42, cacheEx, 0) ∧
    (get_events 30 (fun _ => 99) 40 cacheEx 10).1 = 99 ∧
    (get_events 30 (fun _ => 99) 40 cacheEx 10).2.2 = 1 ∧
    (get_events 30 (fun _ => 99) 40 cacheEx 10).2.1 10 = some (40, 99) ∧
    (get_events 30 (fun _ => 99) 40 cacheEx 10).2.1 20 = some (1, 7) :=
  have h1 := (c2_cache_semantics 30 6 5 (fun _ => 99) cacheEx 10 42).1 rfl (by norm_num)
  have h2 := (c2_cache_semantics 30 40 5 (fun _ => 99) cacheEx 10 42).2.1
    (Or.inr ⟨rfl, by norm_num⟩)
  have h3 := (c2_cache_semantics 30 40 5 (fun _ => 99) cacheEx 10 42).2.2 20 (by norm_num)
  ⟨h1, h2.1, h2.2.1, h2.2.2, by rw [h3]; rfl⟩

/-! ## C3: lock discipline of concurrent `get_events` -/

/-- A task is in phase `fetching` only while it holds the lock (the
`async with` block spans the executor await). -/
lemma srv_lock_invariant {s : SrvState} (h : SrvReach s) :
    (s.ph0 = .fetching → s.lock = some 0) ∧ (s.ph1 = .fetching → s.lock = some 1) := by
  induction h with
  | init => simp [srvInit]
  | next hr hstep ih =>
    cases hstep with
    | hit0 h1 h2 h3 =>
      refine ⟨by simp, fun hp => ?_⟩
      exact absurd ((ih.2 hp).symm.trans h2) (by simp)
    | miss0 h1 h2 h3 =>
      refine ⟨fun _ => rfl, fun hp => ?_⟩
      exact absurd ((ih.2 hp).symm.trans h2) (by simp)
    | fin0 h1 h2 => exact ⟨by simp, fun hp => absurd ((ih.2 hp).symm.trans h2) (by decide)⟩
    | hit1 h1 h2 h3 =>
      refine ⟨fun hp => ?_, by simp⟩
      exact absurd ((ih.1 hp).symm.trans h2) (by simp)
    | miss1 h1 h2 h3 =>
      refine ⟨fun hp => ?_, fun _ => rfl⟩
      exact absurd ((ih.1 hp).symm.trans h2) (by simp)
    | fin1 h1 h2 => exact ⟨fun hp => absurd ((ih.1 hp).symm.trans h2) (by decide), by simp⟩

/-- C3 (amended): in the two-task model of concurrent `get_events`
callers for two different cache keys, no reachable state has both tasks
mid-fetch: the cache lock is held across the executor await, so all
upstream fetches are globally serialized — in particular no two fetches
for the same key, but also none for different keys. -/
theorem c3_fetches_globally_serialized (s : SrvState) (h : SrvReach s) :
    ¬(s.ph0 = .fetching ∧ s.ph1 = .fetching) := by
  rintro ⟨h0, h1⟩
  have inv := srv_lock_invariant h
  exact absurd ((inv.1 h0).symm.trans (inv.2 h1)) (by decide)

/-- Witness for C3 (amended) at the reachable state in which task 0 is
mid-fetch. -/
theorem c3_fetches_globally_serialized_witness :
    ¬(srvBlocked.ph0 = .fetching ∧ srvBlocked.ph1 = .fetching) :=
  c3_fetches_globally_serialized srvBlocked
    (SrvReach.next SrvReach.init (SrvStep.miss0 rfl rfl rfl))

/-- Counterexample to C3 as stated: the state in which task 0 (key 10)
is mid-fetch holding the lock is reachable, and there task 1 (the
different key 20) has no enabled step at all — a blocking fetch in
progress for one key does block the `get_events` call for a different
key, so fetches for different keys cannot proceed concurrently. -/
theorem c3_cross_key_blocked :
    SrvReach srvBlocked ∧ srvBlocked.ph0 = .fetching ∧ srvBlocked.ph1 = .start ∧
    ∀ s' : SrvState, ¬ SrvStep 1 srvBlocked s' := by
  refine ⟨SrvReach.next SrvReach.init (SrvStep.miss0 rfl rfl rfl), rfl, rfl, fun s' h => ?_⟩
  cases h with
  | hit1 h1 h2 h3 => exact absurd h2 (by decide)
  | miss1 h1 h2 h3 => exact absurd h2 (by decide)
  | fin1 h1 h2 => exact absurd h1 (by decide)

/-! ## C5: delta formatting -/

lemma fmt_delta_num (q : ℚ) :
    fmt_delta (some (.num q)) =
      if |q * 100| < 1 / 20 then ("—", "dim")
      else if 0 < q * 100 then ("▲+" ++ fmtFixed1 (q * 100), "green")
      else ("▼" ++ fmtFixed1 (q * 100), "red") := rfl

lemma fmt_delta_plain_num (q : ℚ) :
    fmt_delta_plain (some (.num q)) =
      if |q * 100| < 1 / 20 then ("—", "flat")
      else if 0 < q * 100 then ("▲+" ++ fmtFixed1 (q * 100), "up")
      else ("▼" ++ fmtFixed1 (q * 100), "down") := rfl

lemma fmt_delta_small (q : ℚ) (h : |q * 100| < 1 / 20) :
    fmt_delta (some (.num q)) = ("—", "dim") ∧
    fmt_delta_plain (some (.num q)) = ("—", "flat") := by
  rw [fmt_delta_num, fmt_delta_plain_num, if_pos h, if_pos h]
  exact ⟨rfl, rfl⟩

lemma fmt_delta_pos (q : ℚ) (h : 1 / 20 ≤ q * 100) :
    fmt_delta (some (.num q)) = ("▲+" ++ fmtFixed1 (q * 100), "green") ∧
    fmt_delta_plain (some (.num q)) = ("▲+" ++ fmtFixed1 (q * 100), "up") := by
  have hn : ¬ |q * 100| < 1 / 20 := not_lt.mpr (le_trans h (le_abs_self _))
  have hp : 0 < q * 100 := lt_of_lt_of_le (by norm_num) h
  rw [fmt_delta_num, fmt_delta_plain_num, if_neg hn, if_pos hp, if_neg hn, if_pos hp]
  exact ⟨rfl, rfl⟩

lemma fmt_delta_negative (q : ℚ) (h : q * 100 ≤ -(1 / 20)) :
    fmt_delta (some (.num q)) = ("▼" ++ fmtFixed1 (q * 100), "red") ∧
    fmt_delta_plain (some (.num q)) = ("▼" ++ fmtFixed1 (q * 100), "down") := by
  have hn : ¬ |q * 100| < 1 / 20 := not_lt.mpr (le_trans (by linarith) (neg_le_abs _))
  have hp : ¬ 0 < q * 100 := by linarith
  rw [fmt_delta_num, fmt_delta_plain_num, if_neg hn, if_neg hp, if_neg hn, if_neg hp]
  exact ⟨rfl, rfl⟩

lemma fmtFixed1_3over10 : fmtFixed1 ((3 : ℚ) / 1000 * 100) = "0.3" := by
  rw [fmtFixed1_eval _ 3 (rndHalfEven_of_int _ 3 (by norm_num))]
  rfl

lemma fmtFixed1_1 : fmtFixed1 ((1 : ℚ) / 100 * 100) = "1.0" := by
  rw [fmtFixed1_eval _ 10 (rndHalfEven_of_int _ 10 (by norm_num))]
  rfl

lemma fmtFixed1_neg2 : fmtFixed1 (-((2 : ℚ) / 100) * 100) = "-2.0" := by
  rw [fmtFixed1_eval _ (-20) (rndHalfEven_of_int _ (-20) (by norm_num))]
  rfl

/-- Counterexample to C5 as stated: input 0.003 is 0.3 cents, which is
*above* the 0.05-cent noise floor, so both delta formatters render the
up-arrow `▲+0.3`, not the flat placeholder. -/
theorem c5_delta_0003_not_flat :
    fmt_delta (some (.num (3 / 1000))) = ("▲+0.3", "green") ∧
    fmt_delta_plain (some (.num (3 / 1000))) = ("▲+0.3", "up") ∧
    (("▲+0.3", "green") : String × String) ≠ ("—", "dim") := by
  have h := fmt_delta_pos (3 / 1000) (by norm_num)
  rw [fmtFixed1_3over10] at h
  exact ⟨h.1, h.2, by decide⟩

/-- C5 (amended): null/absent/unparsable input and any input whose
magnitude in cents is below 0.05 map to the flat placeholder; input at
or above the noise floor maps to up-arrow + `+` + one-decimal cents when
positive (`green`/`up`) and down-arrow + one-decimal cents when negative
(`red`/`down`); in particular 0.01 yields `▲+1.0` and -0.02 yields
`▼-2.0`, while 0.003 — being 0.3 cents, above the noise floor — yields
`▲+0.3`, not the flat placeholder. -/
theorem c5_fmt_delta_amended :
    (fmt_delta none = ("—", "dim") ∧ fmt_delta_plain none = ("—", "flat")) ∧
    (fmt_delta (some .null) = ("—", "dim") ∧ fmt_delta_plain (some .null) = ("—", "flat")) ∧
    (∀ s : String, parseFloatLit s = none →
      fmt_delta (some (.str s)) = ("—", "dim") ∧
      fmt_delta_plain (some (.str s)) = ("—", "flat")) ∧
    (∀ q : ℚ, |q * 100| < 1 / 20 →
      fmt_delta (some (.num q)) = ("—", "dim") ∧
      fmt_delta_plain (some (.num q)) = ("—", "flat")) ∧
    (∀ q : ℚ, 1 / 20 ≤ q * 100 →
      fmt_delta (some (.num q)) = ("▲+" ++ fmtFixed1 (q * 100), "green") ∧
      fmt_delta_plain (some (.num q)) = ("▲+" ++ fmtFixed1 (q * 100), "up")) ∧
    (∀ q : ℚ, q * 100 ≤ -(1 / 20) →
      fmt_delta (some (.num q)) = ("▼" ++ fmtFixed1 (q * 100), "red") ∧
      fmt_delta_plain (some (.num q)) = ("▼" ++ fmtFixed1 (q * 100), "down")) ∧
    (fmt_delta (some (.num (1 / 100))) = ("▲+1.0", "green") ∧
      fmt_delta_plain (some (.num (1 / 100))) = ("▲+1.0", "up")) ∧
    (fmt_delta (some (.num (-(2 / 100)))) = ("▼-2.0", "red") ∧
      fmt_delta_plain (some (.num (-(2 / 100)))) = ("▼-2.0", "down")) ∧
    (fmt_delta (some (.num (3 / 1000))) = ("▲+0.3", "green") ∧
      fmt_delta_plain (some (.num (3 / 1000))) = ("▲+0.3", "up")) := by
  refine ⟨⟨rfl, rfl⟩, ⟨rfl, rfl⟩, fun s hs => ?_, fmt_delta_small, fmt_delta_pos,
    fmt_delta_negative, ?_, ?_, ?_⟩
  · constructor
    · show (match pyFloat (.str s) with
        | .error _ => ("—", "dim")
        | .ok x =>
          if |x * 100| < 1 / 20 then ("—", "dim")
          else if 0 < x * 100 then ("▲+" ++ fmtFixed1 (x * 100), "green")
          else ("▼" ++ fmtFixed1 (x * 100), "red")) = ("—", "dim")
      rw [show pyFloat (.str s) = .error .valueError by rw [pyFloat, hs]]
    · show (match pyFloat (.str s) with
        | .error _ => ("—", "flat")
        | .ok x =>
          if |x * 100| < 1 / 20 then ("—", "flat")
          else if 0 < x * 100 then ("▲+" ++ fmtFixed1 (x * 100), "up")
          else ("▼" ++ fmtFixed1 (x * 100), "down")) = ("—", "flat")
      rw [show pyFloat (.str s) = .error .valueError by rw [pyFloat, hs]]
  · have h := fmt_delta_pos (1 / 100) (by norm_num)
    rwa [fmtFixed1_1] at h
  · have h := fmt_delta_negative (-(2 / 100)) (by norm_num)
    rwa [fmtFixed1_neg2] at h
  · have h := fmt_delta_pos (3 / 1000) (by norm_num)
    rwa [fmtFixed1_3over10] at h

/-- Witness for C5 (amended) at the unparsable string "abc" and the
in-noise-floor value 0.0001. -/
theorem c5_fmt_delta_amended_witness :
    (fmt_delta (some (.str "abc")) = ("—", "dim") ∧
      fmt_delta_plain (some (.str "abc")) = ("—", "flat")) ∧
    (fmt_delta (some (.num (1 / 10000))) = ("—", "dim") ∧
      fmt_delta_plain (some (.num (1 / 10000))) = ("—", "flat")) :=
  ⟨c5_fmt_delta_amended.2.2.1 "abc" rfl,
   c5_fmt_delta_amended.2.2.2.1 (1 / 10000) (by rw [abs_of_pos] <;> norm_num)⟩

/-! ## C6: volume formatting -/

lemma fmt_vol_num (q : ℚ) (hq : q ≠ 0) :
    fmt_vol (some (.num q)) =
      if 1000000 ≤ q then "$" ++ fmtFixed1 (q / 1000000) ++ "M"
      else if 1000 ≤ q then "$" ++ fmtFixed0 (q / 1000) ++ "K"
      else "$" ++ fmtFixed0 q := by
  have hf : jsonFalsy (.num q) = false := by
    simp only [jsonFalsy, beq_eq_false_iff_ne, ne_eq, hq, not_false_eq_true]
  simp only [fmt_vol, hf, Bool.false_eq_true, if_false, pyFloat]

lemma fmt_vol_zeroish : fmt_vol none = "$0" ∧ fmt_vol (some .null) = "$0" := by
  have h0 : fmtFixed0 (0 : ℚ) = "0" := by
    rw [fmtFixed0_eval _ 0 (rndHalfEven_of_int _ 0 (by norm_num))]
    rfl
  constructor
  · show (if (1000000 : ℚ) ≤ 0 then "$" ++ fmtFixed1 ((0 : ℚ) / 1000000) ++ "M"
      else if (1000 : ℚ) ≤ 0 then "$" ++ fmtFixed0 ((0 : ℚ) / 1000) ++ "K"
      else "$" ++ fmtFixed0 0) = "$0"
    rw [if_neg (by norm_num), if_neg (by norm_num), h0]
    rfl
  · show (if (1000000 : ℚ) ≤ 0 then "$" ++ fmtFixed1 ((0 : ℚ) / 1000000) ++ "M"
      else if (1000 : ℚ) ≤ 0 then "$" ++ fmtFixed0 ((0 : ℚ) / 1000) ++ "K"
      else "$" ++ fmtFixed0 0) = "$0"
    rw [if_neg (by norm_num), if_neg (by norm_num), h0]
    rfl

/-- Counterexample to C6 as stated: an absent volume is not mapped to
the em-dash — `v or 0` turns it into 0, rendered `$0`; and 2500 renders
`$2K` (Python's `:.0f` rounds half to even), not `$3K`. -/
theorem c6_fmt_vol_counterexample :
    fmt_vol none = "$0" ∧ ("$0" : String) ≠ "—" ∧
    fmt_vol (some (.num 2500)) = "$2K" ∧ ("$2K" : String) ≠ "$3K" := by
  refine ⟨fmt_vol_zeroish.1, by decide, ?_, by decide⟩
  rw [fmt_vol_num 2500 (by norm_num), if_neg (by norm_num), if_pos (by norm_num),
    fmtFixed0_eval _ 2 (rndHalfEven_of_tie_even _ 2 (by norm_num) (by norm_num))]
  rfl

/-- C6 (amended): a successfully parsed value at least 1,000,000 renders
as `$` + value/1e6 to one decimal + `M`; at least 1,000 renders as `$` +
value/1e3 rounded (half to even) to zero decimals + `K`; any other
parsed value as `$` + the value rounded to zero decimals; a *truthy*
non-numeric value (unparsable string, non-empty list) renders as the
em-dash; but an absent/null (or otherwise falsy) value is treated as 0
and renders `$0`, not the em-dash.  In particular 1,500,000 → `$1.5M`,
2,500 → `$2K` (not `$3K`), 999 → `$999`. -/
theorem c6_fmt_vol_amended :
    (∀ q : ℚ, 1000000 ≤ q →
      fmt_vol (some (.num q)) = "$" ++ fmtFixed1 (q / 1000000) ++ "M") ∧
    (∀ q : ℚ, 1000 ≤ q → q < 1000000 →
      fmt_vol (some (.num q)) = "$" ++ fmtFixed0 (q / 1000) ++ "K") ∧
    (∀ q : ℚ, q ≠ 0 → q < 1000 → fmt_vol (some (.num q)) = "$" ++ fmtFixed0 q) ∧
    (∀ s : String, parseFloatLit s = none → s.isEmpty = false →
      fmt_vol (some (.str s)) = "—") ∧
    (∀ j : Json, ∀ js : List Json, fmt_vol (some (.arr (j :: js))) = "—") ∧
    (fmt_vol none = "$0" ∧ fmt_vol (some .null) = "$0") ∧
    fmt_vol (some (.num 1500000)) = "$1.5M" ∧
    fmt_vol (some (.num 2500)) = "$2K" ∧
    fmt_vol (some (.num 999)) = "$999" := by
  refine ⟨fun q h => ?_, fun q h1 h2 => ?_, fun q h0 h2 => ?_, fun s hs he => ?_,
    fun j js => ?_, fmt_vol_zeroish, ?_, ?_, ?_⟩
  · rw [fmt_vol_num q (by intro h0; rw [h0] at h; norm_num at h), if_pos h]
  · rw [fmt_vol_num q (by intro h0; rw [h0] at h1; norm_num at h1),
      if_neg (not_le.mpr h2), if_pos h1]
  · by_cases hm : (1000000 : ℚ) ≤ q
    · exact absurd hm (not_le.mpr (by linarith))
    · rw [fmt_vol_num q h0, if_neg hm, if_neg (not_le.mpr h2)]
  · have hf : jsonFalsy (.str s) = false := he
    have hp : pyFloat (.str s) = .error .valueError := by rw [pyFloat, hs]
    simp only [fmt_vol, hf, Bool.false_eq_true, if_false, hp]
  · rfl
  · rw [fmt_vol_num 1500000 (by norm_num), if_pos (by norm_num),
      fmtFixed1_eval _ 15 (rndHalfEven_of_int _ 15 (by norm_num))]
    rfl
  · rw [fmt_vol_num 2500 (by norm_num), if_neg (by norm_num), if_pos (by norm_num),
      fmtFixed0_eval _ 2 (rndHalfEven_of_tie_even _ 2 (by norm_num) (by norm_num))]
    rfl
  · rw [fmt_vol_num 999 (by norm_num), if_neg (by norm_num), if_neg (by norm_num),
      fmtFixed0_eval _ 999 (rndHalfEven_of_int _ 999 (by norm_num))]
    rfl

/-- Witness for C6 (amended) at a large volume and an unparsable
string. -/
theorem c6_fmt_vol_amended_witness :
    fmt_vol (some (.num 2000000)) = "$" ++ fmtFixed1 ((2000000 : ℚ) / 1000000) ++ "M" ∧
    fmt_vol (some (.str "abc")) = "—" :=
  ⟨c6_fmt_vol_amended.1 2000000 (by norm_num),
   c6_fmt_vol_amended.2.2.2.1 "abc" rfl rfl⟩

/-! ## C7: the volume sort of `fetch_events` -/

def eBadVol : Event := { volume := some (.str "oops") }

/-- Counterexample to C7 as stated: an event whose volume is a truthy
non-numeric string is not treated as 0 — the `float` call inside the
sort key raises `ValueError`, which `fetch_events` does not catch (its
`except` clause only lists `json.JSONDecodeError`), so the error
propagates out of the sort. -/
theorem c7_nonnumeric_volume_raises :
    fetch_events_sort [eBadVol] 10 = .error .valueError ∧
    volKey eBadVol = .error .valueError := ⟨rfl, rfl⟩

/-- C7 (amended): a missing or falsy volume field is treated as 0; when
every volume key evaluates (numeric, falsy, or absent), the events are
stable-sorted by volume descending and truncated to `limit`; but a
truthy non-numeric volume raises out of the sort (`ValueError` for an
unparsable string), it is not treated as 0. -/
theorem c7_fetch_sort_amended (data : List Event) (limit : ℕ) :
    (∀ e : Event, e.volume = none → volKey e = .ok 0) ∧
    (∀ e : Event, ∀ j : Json, e.volume = some j → jsonFalsy j = true → volKey e = .ok 0) ∧
    (∀ er : PyErr, volKeysOk data = .error er → fetch_events_sort data limit = .error er) ∧
    (volKeysOk data = .ok () →
      ∃ L, fetch_events_sort data limit = .ok L ∧
        L.Pairwise (fun a b => volKeyD b ≤ volKeyD a) ∧
        L.length = min limit data.length) := by
  refine ⟨fun e he => ?_, fun e j hj hf => ?_, fun er her => ?_, fun hok => ?_⟩
  · rw [volKey, he]
  · simp only [volKey, hj, hf, if_true]
  · rw [fetch_events_sort, her]
  · refine ⟨(data.insertionSort (keyRel volKeyD)).take limit, ?_, ?_, ?_⟩
    · rw [fetch_events_sort, hok]
    · exact (pairwise_insertionSort_key volKeyD data).sublist (List.take_sublist _ _)
    · rw [List.length_take, List.length_insertionSort]

/-- Witness for C7 (amended): two events with volumes 5 and 7 sort to
7, 5; an event without a volume gets key 0. -/
theorem c7_fetch_sort_amended_witness :
    volKey ({ } : Event) = .ok 0 ∧
    ∃ L, fetch_events_sort [{ volume := some (.num 5) }, { volume := some (.num 7) }] 10 =
        .ok L ∧
      L.Pairwise (fun a b => volKeyD b ≤ volKeyD a) ∧
      L.length = min 10 2 :=
  ⟨(c7_fetch_sort_amended [] 0).1 { } rfl,
   (c7_fetch_sort_amended [{ volume := some (.num 5) }, { volume := some (.num 7) }] 10).2.2.2
     rfl⟩

/-! ## C8: per-market parse failures in the extractors -/

def mBadNull : Market := { outcomePrices := some (.wellFormed (.arr [.null])) }

def eBadNull : Event := { markets := [mBadNull, mEx1] }

/-- Counterexample to C8 as stated: a market whose serialized price list
is the valid JSON `[null]` makes `float(None)` raise `TypeError`, which
is not in the `except` clause — both extractors raise instead of
defaulting that contender's yes-probability to 0.0, and the remaining
markets of the event are not processed. -/
theorem c8_null_price_raises :
    marketYes mBadNull = .error .typeError ∧
    top_contenders eBadNull = .error .typeError ∧
    all_contenders eBadNull = .error .typeError := ⟨rfl, rfl, rfl⟩

/-- C8 (amended): a parse failure raising `JSONDecodeError` (malformed
JSON), `IndexError` (empty list) or `ValueError` (non-numeric-string
first element) defaults that contender's yes-probability to 0.0, and an
absent field defaults to the list `[0, 1]`, so yes = 0.0; when every
market's yes-probability evaluates, both extractors process all markets
of the event; but a well-formed first element on which `float` raises
`TypeError` (e.g. JSON `null`) propagates and aborts the extraction. -/
theorem c8_parse_failure_localized :
    (∀ m : Market, m.outcomePrices = some .malformed → marketYes m = .ok 0) ∧
    (∀ m : Market, m.outcomePrices = some (.wellFormed (.arr [])) → marketYes m = .ok 0) ∧
    (∀ m : Market, ∀ s : String, ∀ js : List Json,
      m.outcomePrices = some (.wellFormed (.arr (.str s :: js))) → parseFloatLit s = none →
      marketYes m = .ok 0) ∧
    (∀ m : Market, m.outcomePrices = none → marketYes m = .ok 0) ∧
    (∀ ms : List Market, (∀ m ∈ ms, ∃ q, marketYes m = .ok q) →
      (∃ cs, parseMarkets ms = .ok cs ∧ cs.length = ms.length) ∧
      (∃ cs, parseMarketsW ms = .ok cs ∧ cs.length = ms.length)) := by
  refine ⟨fun m hm => ?_, fun m hm => ?_, fun m s js hm hs => ?_, fun m hm => ?_,
    fun ms h => ⟨?_, ?_⟩⟩
  · rw [marketYes, hm]
    rfl
  · rw [marketYes, hm]
    rfl
  · rw [marketYes, hm]
    show (match (pyFloat (.str s) : Except PyErr ℚ) with
      | .ok q => Except.ok q
      | .error .jsonDecodeError => Except.ok 0
      | .error .indexError => Except.ok 0
      | .error .valueError => Except.ok 0
      | .error e => Except.error e) = Except.ok 0
    rw [show pyFloat (.str s) = .error .valueError by rw [pyFloat, hs]]
  · rw [marketYes, hm]
    rfl
  · induction ms with
    | nil => exact ⟨[], rfl, rfl⟩
    | cons m ms ih =>
      obtain ⟨q, hq⟩ := h m (List.mem_cons_self _ _)
      obtain ⟨cs, hcs, hlen⟩ := ih fun m' hm' => h m' (List.mem_cons_of_mem _ hm')
      refine ⟨⟨marketName m, q, m.oneDayPriceChange⟩ :: cs, ?_, by simp [hlen]⟩
      simp only [parseMarkets, parseMarket, hq, hcs, bind, Except.bind, pure, Except.pure]
  · induction ms with
    | nil => exact ⟨[], rfl, rfl⟩
    | cons m ms ih =>
      obtain ⟨q, hq⟩ := h m (List.mem_cons_self _ _)
      obtain ⟨cs, hcs, hlen⟩ := ih fun m' hm' => h m' (List.mem_cons_of_mem _ hm')
      refine ⟨⟨marketName m, q, m.oneDayPriceChange, marketEndDate m⟩ :: cs, ?_,
        by simp [hlen]⟩
      simp only [parseMarketsW, parseMarketW, hq, hcs, bind, Except.bind, pure, Except.pure]

/-- Witness for C8 (amended): a malformed price string, an empty list, a
non-numeric first element and an absent field all default to yes 0.0,
and a two-market event with such failures still yields two contenders. -/
theorem c8_parse_failure_localized_witness :
    marketYes { outcomePrices := some .malformed } = .ok 0 ∧
    marketYes { outcomePrices := some (.wellFormed (.arr [])) } = .ok 0 ∧
    marketYes { outcomePrices := some (.wellFormed (.arr [.str "x"])) } = .ok 0 ∧
    marketYes ({ } : Market) = .ok 0 ∧
    (∃ cs, parseMarkets [{ outcomePrices := some .malformed }, mEx1] = .ok cs ∧
      cs.length = 2) :=
  ⟨c8_parse_failure_localized.1 { outcomePrices := some .malformed } rfl,
   c8_parse_failure_localized.2.1 { outcomePrices := some (.wellFormed (.arr [])) } rfl,
   c8_parse_failure_localized.2.2.1 { outcomePrices := some (.wellFormed (.arr [.str "x"])) }
     "x" [] rfl rfl,
   c8_parse_failure_localized.2.2.2.1 { } rfl,
   (c8_parse_failure_localized.2.2.2.2 [{ outcomePrices := some .malformed }, mEx1]
     (by
       intro m hm
       simp only [List.mem_cons, List.not_mem_nil, or_false] at hm
       rcases hm with h | h
       · exact ⟨0, by rw [h]; rfl⟩
       · exact ⟨1, by rw [h]; rfl⟩)).1⟩

/-! ## C9: `api_events` limit validation -/

/-- Counterexample to C9 as stated: `limit=0` is not clamped to 1 and
served — FastAPI rejects it with a validation error. -/
theorem c9_limit_zero_rejected :
    api_events_limit (some 0) = .error () ∧ clamp_limit_spec (some 0) = 1 := ⟨rfl, rfl⟩

/-- C9 (amended): an absent limit defaults to 10; an in-range limit is
served as given; an out-of-range limit is rejected with a 422 validation
error rather than clamped; every successfully validated limit lies in
[1, 100]. -/
theorem c9_limit_validated :
    api_events_limit none = .ok 10 ∧
    (∀ v : ℤ, 1 ≤ v → v ≤ 100 → api_events_limit (some v) = .ok v) ∧
    (∀ v : ℤ, v < 1 ∨ 100 < v → api_events_limit (some v) = .error ()) ∧
    (∀ n : Option ℤ, ∀ v : ℤ, api_events_limit n = .ok v → 1 ≤ v ∧ v ≤ 100) := by
  refine ⟨rfl, fun v h1 h2 => ?_, fun v h => ?_, fun n v h => ?_⟩
  · rw [api_events_limit, if_pos ⟨h1, h2⟩]
  · rw [api_events_limit, if_neg (by omega)]
  · cases n with
    | none =>
      rw [api_events_limit] at h
      cases h
      omega
    | some w =>
      rw [api_events_limit] at h
      by_cases hw : 1 ≤ w ∧ w ≤ 100
      · rw [if_pos hw] at h
        cases h
        omega
      · rw [if_neg hw] at h
        cases h

/-- Witness for C9 (amended): limit 50 is served as 50; limit 101 is
rejected. -/
theorem c9_limit_validated_witness :
    api_events_limit (some 50) = .ok 50 ∧ api_events_limit (some 101) = .error () :=
  ⟨c9_limit_validated.2.1 50 (by norm_num) (by norm_num),
   c9_limit_validated.2.2.1 101 (Or.inr (by norm_num))⟩

/-! ## C10: price cell suppression for non-positive yes -/

/-- C10: in both the terminal table row and the web API contender
object, a contender whose yes-probability is zero or negative (including
the 0.0 default after a parse failure) renders an empty price, never the
`<1¢` sentinel; the cents formatter is applied exactly when the
yes-probability is strictly positive. -/
theorem c10_nonpositive_price_empty (yes : ℚ) :
    (yes ≤ 0 → price_cell yes = "" ∧ api_price yes = "" ∧
      price_cell yes ≠ "<1¢" ∧ api_price yes ≠ "<1¢") ∧
    (0 < yes → price_cell yes = fmt_price_cents yes ∧ api_price yes = fmt_price_cents yes) := by
  constructor
  · intro h
    have hn : ¬ 0 < yes := not_lt.mpr h
    rw [price_cell, api_price, if_neg hn]
    exact ⟨rfl, rfl, by decide, by decide⟩
  · intro h
    rw [price_cell, api_price, if_pos h]
    exact ⟨rfl, rfl⟩

/-- Witness for C10 at the parse-failure default 0 and at a positive
probability. -/
theorem c10_nonpositive_price_empty_witness :
    (price_cell 0 = "" ∧ api_price 0 = "" ∧
      price_cell 0 ≠ "<1¢" ∧ api_price 0 ≠ "<1¢") ∧
    (price_cell (94 / 100) = fmt_price_cents (94 / 100) ∧
      api_price (94 / 100) = fmt_price_cents (94 / 100)) :=
  ⟨(c10_nonpositive_price_empty 0).1 le_rfl,
   (c10_nonpositive_price_empty (94 / 100)).2 (by norm_num)⟩

/-- Witness for C1 at widths 120 (one contender fits) and 50 (below the
minimum single-contender width). -/
theorem c1_calc_layout_bounds_witness :
    total_width (calc_layout 120).1 (calc_layout 120).2.1 ≤ 120 ∧ (calc_layout 50).1 = 1 :=
  ⟨(c1_calc_layout_bounds 120).2.2.1
      ⟨1, by norm_num, by norm_num,
        by norm_num [total_width, FIXED_COLS_W, PRICE_W, DELTA_W, MIN_NAME_W]⟩,
   (c1_calc_layout_bounds 50).2.2.2
      (by norm_num [total_width, FIXED_COLS_W, PRICE_W, DELTA_W, MIN_NAME_W])⟩
